import Mathlib

/-!
Shallow embedding of the ChartDB provider mutation-and-history engine
(`src/context/chartdb-context/chartdb-provider.tsx`).

The React provider keeps five pieces of state (`diagramId`, `diagramName`,
`databaseType`, `tables`, `relationships`), a storage gateway `db`, and an
undo/redo stack (`addUndoAction`, `resetRedoStack`).  Each mutation operation
is embedded as a pure function from its inputs (gateway behaviour, current
state slice, history log, arguments) to an `OpOut` record holding the updated
state slice, the updated history log, the list of storage-gateway calls the
operation issued, and the operation's settled outcome (the promise either
fulfils, `Except.ok`, or rejects with the first storage error,
`Except.error`).  An `await` that rejects aborts the rest of the operation
body, exactly as in the source: statements after the failed `await` (in
particular history recording) do not run, while state updates made before it
remain applied.

JS timestamps (`Date.now()`), generated ids (`generateId()`) and random
colors (`randomHSLA()`) are external utilities; they enter the embedding as
explicit arguments.
-/

namespace ChartDB

/-- `DBField` from `@/lib/domain/db-field`: id, name, type tag, flags, timestamp. -/
structure DBField where
  id : String
  name : String
  type : String
  unique : Bool
  nullable : Bool
  primaryKey : Bool
  createdAt : Nat
deriving DecidableEq, Repr

/-- `DBIndex` from `@/lib/domain/db-index`. -/
structure DBIndex where
  id : String
  name : String
  fieldIds : List String
  unique : Bool
  createdAt : Nat
deriving DecidableEq, Repr

/-- `DBTable` from `@/lib/domain/db-table`. -/
structure DBTable where
  id : String
  name : String
  x : Int
  y : Int
  fields : List DBField
  indexes : List DBIndex
  color : String
  createdAt : Nat
  isView : Bool
deriving DecidableEq, Repr

/-- `DBRelationship` from `@/lib/domain/db-relationship`. -/
structure DBRelationship where
  id : String
  name : String
  sourceTableId : String
  targetTableId : String
  sourceFieldId : String
  targetFieldId : String
  type : String
  createdAt : Nat
deriving DecidableEq, Repr

/-- A full diagram as returned by the storage gateway's `getDiagram`. -/
structure Diagram where
  id : String
  name : String
  databaseType : String
  tables : List DBTable
  relationships : List DBRelationship
deriving DecidableEq, Repr

/-- `Partial<DBField>`: every attribute optional; `{...f, ...patch}` keeps
`f`'s value for attributes absent from the patch. -/
structure FieldPatch where
  id : Option String := none
  name : Option String := none
  type : Option String := none
  unique : Option Bool := none
  nullable : Option Bool := none
  primaryKey : Option Bool := none
  createdAt : Option Nat := none
deriving DecidableEq, Repr

/-- JS shallow spread `{...f, ...patch}` for a field. -/
def applyFieldPatch (f : DBField) (p : FieldPatch) : DBField :=
  { id := p.id.getD f.id
    name := p.name.getD f.name
    type := p.type.getD f.type
    unique := p.unique.getD f.unique
    nullable := p.nullable.getD f.nullable
    primaryKey := p.primaryKey.getD f.primaryKey
    createdAt := p.createdAt.getD f.createdAt }

/-- `Partial<DBIndex>`. -/
structure IndexPatch where
  id : Option String := none
  name : Option String := none
  fieldIds : Option (List String) := none
  unique : Option Bool := none
  createdAt : Option Nat := none
deriving DecidableEq, Repr

/-- JS shallow spread `{...i, ...patch}` for an index. -/
def applyIndexPatch (i : DBIndex) (p : IndexPatch) : DBIndex :=
  { id := p.id.getD i.id
    name := p.name.getD i.name
    fieldIds := p.fieldIds.getD i.fieldIds
    unique := p.unique.getD i.unique
    createdAt := p.createdAt.getD i.createdAt }

/-- `Partial<DBTable>` (used by `updateTable`). -/
structure TablePatch where
  id : Option String := none
  name : Option String := none
  x : Option Int := none
  y : Option Int := none
  fields : Option (List DBField) := none
  indexes : Option (List DBIndex) := none
  color : Option String := none
  createdAt : Option Nat := none
  isView : Option Bool := none
deriving DecidableEq, Repr

/-- JS shallow spread `{...t, ...patch}` for a table. -/
def applyTablePatch (t : DBTable) (p : TablePatch) : DBTable :=
  { id := p.id.getD t.id
    name := p.name.getD t.name
    x := p.x.getD t.x
    y := p.y.getD t.y
    fields := p.fields.getD t.fields
    indexes := p.indexes.getD t.indexes
    color := p.color.getD t.color
    createdAt := p.createdAt.getD t.createdAt
    isView := p.isView.getD t.isView }

/-- `PartialExcept<DBTable, 'id'>` (entries of `updateTablesState`'s
transformation result): `id` required, everything else optional. -/
structure TableUpdate where
  id : String
  name : Option String := none
  x : Option Int := none
  y : Option Int := none
  fields : Option (List DBField) := none
  indexes : Option (List DBIndex) := none
  color : Option String := none
  createdAt : Option Nat := none
  isView : Option Bool := none
deriving DecidableEq, Repr

/-- JS shallow spread `{...prevTable, ...updatedTable}` where
`updatedTable : PartialExcept<DBTable, 'id'>`. -/
def applyTableUpdate (t : DBTable) (u : TableUpdate) : DBTable :=
  { id := u.id
    name := u.name.getD t.name
    x := u.x.getD t.x
    y := u.y.getD t.y
    fields := u.fields.getD t.fields
    indexes := u.indexes.getD t.indexes
    color := u.color.getD t.color
    createdAt := u.createdAt.getD t.createdAt
    isView := u.isView.getD t.isView }

/-- `Partial<DBRelationship>`. -/
structure RelationshipPatch where
  id : Option String := none
  name : Option String := none
  sourceTableId : Option String := none
  targetTableId : Option String := none
  sourceFieldId : Option String := none
  targetFieldId : Option String := none
  type : Option String := none
  createdAt : Option Nat := none
deriving DecidableEq, Repr

/-- JS shallow spread `{...r, ...patch}` for a relationship. -/
def applyRelationshipPatch (r : DBRelationship) (p : RelationshipPatch) : DBRelationship :=
  { id := p.id.getD r.id
    name := p.name.getD r.name
    sourceTableId := p.sourceTableId.getD r.sourceTableId
    targetTableId := p.targetTableId.getD r.targetTableId
    sourceFieldId := p.sourceFieldId.getD r.sourceFieldId
    targetFieldId := p.targetFieldId.getD r.targetFieldId
    type := p.type.getD r.type
    createdAt := p.createdAt.getD r.createdAt }

/-- The `redoData` / `undoData` payload bundles of history actions, one
constructor per object shape appearing in the source's `addUndoAction`
calls. -/
inductive ActionData where
  | nameOnly (name : String)
  | tableOnly (table : DBTable)
  | tableIdOnly (tableId : String)
  | tableIdWithPatch (tableId : String) (table : TablePatch)
  | tableIdWithTable (tableId : String) (table : DBTable)
  | tablesOnly (tables : List DBTable)
  | fieldUpdate (tableId : String) (fieldId : String) (field : DBField)
  | fieldRef (tableId : String) (fieldId : String)
  | tableIdWithField (tableId : String) (field : DBField)
  | indexRef (tableId : String) (indexId : String)
  | tableIdWithIndex (tableId : String) (index : DBIndex)
  | indexUpdatePatch (tableId : String) (indexId : String) (index : IndexPatch)
  | indexUpdateFull (tableId : String) (indexId : String) (index : DBIndex)
  | relationshipOnly (relationship : DBRelationship)
  | relationshipIdOnly (relationshipId : String)
  | relationshipsOnly (relationships : List DBRelationship)
  | relationshipIdsOnly (relationshipIds : List String)
  | relationshipUpdatePatch (relationshipId : String) (relationship : RelationshipPatch)
  | relationshipUpdateFull (relationshipId : String) (relationship : DBRelationship)
deriving DecidableEq, Repr

/-- A history `Action`: tagged operation name plus redo/undo payloads. -/
structure Action where
  action : String
  redoData : ActionData
  undoData : ActionData
deriving DecidableEq, Repr

/-- The undo/redo stacks of `use-redo-undo-stack`. -/
structure HistoryLog where
  undoStack : List Action
  redoStack : List Action
deriving DecidableEq, Repr

/-- `addUndoAction`: push an action onto the undo stack. -/
def addUndoAction (h : HistoryLog) (a : Action) : HistoryLog :=
  { h with undoStack := a :: h.undoStack }

/-- `resetRedoStack`: discard the redo branch. -/
def resetRedoStack (h : HistoryLog) : HistoryLog :=
  { h with redoStack := [] }

/-- In every operation the source guards `addUndoAction` + `resetRedoStack`
behind a condition (`options.updateHistory`, possibly conjoined with
existence of the prior entity); this helper is that guarded tail. -/
def recordIf (cond : Bool) (h : HistoryLog) (a : Action) : HistoryLog :=
  if cond then resetRedoStack (addUndoAction h a) else h

/-- One issued storage-gateway call, keyed as in the source. -/
inductive PersistCall where
  | updateDiagramCall (id : String)
  | getDiagramCall (id : String)
  | addTableCall (diagramId : String) (tableId : String)
  | updateTableCall (tableId : String)
  | deleteTableCall (diagramId : String) (tableId : String)
  | getTableCall (diagramId : String) (tableId : String)
  | addRelationshipCall (diagramId : String) (relationshipId : String)
  | deleteRelationshipCall (diagramId : String) (relationshipId : String)
  | updateRelationshipCall (relationshipId : String)
deriving DecidableEq, Repr

/-- Behaviour of the storage gateway (`useStorage`): lookup results and,
for each write, whether the returned promise fulfils or rejects. -/
structure Gateway where
  getTableRes : String → String → Option DBTable
  getDiagramRes : String → Option Diagram
  updateDiagramRes : Except String Unit
  addTableRes : String → Except String Unit
  updateTableRes : String → Except String Unit
  deleteTableRes : String → Except String Unit
  addRelationshipRes : String → Except String Unit
  deleteRelationshipRes : String → Except String Unit
  updateRelationshipRes : String → Except String Unit

/-- `await Promise.all(...)`: fulfils iff every joined promise fulfils,
otherwise rejects with a rejection reason. -/
def promiseAll : List (Except String Unit) → Except String Unit
  | [] => Except.ok ()
  | Except.error e :: _ => Except.error e
  | Except.ok () :: rest => promiseAll rest

/-- Result of one mutation operation: the state slice it rewrote, the
history log, the gateway calls it issued, and its settled outcome. -/
structure OpOut (σ : Type) where
  store : σ
  history : HistoryLog
  calls : List PersistCall
  outcome : Except String Unit
deriving Repr

/-- `getTable` accessor: `tables.find((table) => table.id === id) ?? null`. -/
def getTable (tables : List DBTable) (id : String) : Option DBTable :=
  tables.find? (fun table => table.id == id)

/-- `getField` accessor: `table?.fields.find((f) => f.id === fieldId) ?? null`. -/
def getField (tables : List DBTable) (tableId : String) (fieldId : String) : Option DBField :=
  (getTable tables tableId).bind (fun table => table.fields.find? (fun f => f.id == fieldId))

/-- `getIndex` accessor: `table?.indexes.find((i) => i.id === indexId) ?? null`. -/
def getIndex (tables : List DBTable) (tableId : String) (indexId : String) : Option DBIndex :=
  (getTable tables tableId).bind (fun table => table.indexes.find? (fun i => i.id == indexId))

/-- `getRelationship` accessor. -/
def getRelationship (relationships : List DBRelationship) (id : String) : Option DBRelationship :=
  relationships.find? (fun relationship => relationship.id == id)

/-- `updateDatabaseType`: `setDatabaseType(databaseType)` then
`await db.updateDiagram({id: diagramId, attributes: {databaseType}})`.
No history is recorded and no `updateHistory` option exists. -/
def updateDatabaseType (db : Gateway) (diagramId : String) (hist : HistoryLog)
    (databaseType : String) : OpOut String :=
  { store := databaseType
    history := hist
    calls := [PersistCall.updateDiagramCall diagramId]
    outcome := db.updateDiagramRes }

/-- `updateDiagramId`: `prevId = diagramId; setDiagramId(id)` then
`await db.updateDiagram({id: prevId, attributes: {id}})` — the persisted
record is keyed by the previous id.  No history is recorded and no
`updateHistory` option exists. -/
def updateDiagramId (db : Gateway) (diagramId : String) (hist : HistoryLog)
    (id : String) : OpOut String :=
  { store := id
    history := hist
    calls := [PersistCall.updateDiagramCall diagramId]
    outcome := db.updateDiagramRes }

/-- `updateDiagramName`: remember `prevName`, set the new name, persist, and
(if the persist fulfilled and `updateHistory`) record an action. -/
def updateDiagramName (db : Gateway) (diagramId : String) (diagramName : String)
    (hist : HistoryLog) (name : String) (updateHistory : Bool) : OpOut String :=
  let calls := [PersistCall.updateDiagramCall diagramId]
  match db.updateDiagramRes with
  | Except.error e => { store := name, history := hist, calls := calls, outcome := Except.error e }
  | Except.ok () =>
      { store := name
        history := recordIf updateHistory hist
          { action := "updateDiagramName"
            redoData := ActionData.nameOnly name
            undoData := ActionData.nameOnly diagramName }
        calls := calls
        outcome := Except.ok () }

/-- `addTable`: append the table, `await db.addTable`, then (on fulfilment,
if `updateHistory`) record. -/
def addTable (db : Gateway) (diagramId : String) (tables : List DBTable)
    (hist : HistoryLog) (table : DBTable) (updateHistory : Bool) : OpOut (List DBTable) :=
  let newTables := tables ++ [table]
  let calls := [PersistCall.addTableCall diagramId table.id]
  match db.addTableRes table.id with
  | Except.error e => { store := newTables, history := hist, calls := calls, outcome := Except.error e }
  | Except.ok () =>
      { store := newTables
        history := recordIf updateHistory hist
          { action := "addTable"
            redoData := ActionData.tableOnly table
            undoData := ActionData.tableIdOnly table.id }
        calls := calls
        outcome := Except.ok () }

/-- `createTable`: build a table with a generated id, default name
`table_<n+1>`, one generated primary-key bigint field named `id`, no
indexes, a random color, then `await addTable(table)` (default options,
so `updateHistory = true`) and return the built table.  The generated ids,
random color and current time are inputs of the embedding. -/
def createTable (db : Gateway) (diagramId : String) (tables : List DBTable)
    (hist : HistoryLog) (genTableId : String) (genFieldId : String)
    (color : String) (now : Nat) : OpOut (List DBTable) × DBTable :=
  let table : DBTable :=
    { id := genTableId
      name := "table_" ++ toString (tables.length + 1)
      x := 0
      y := 0
      fields := [{ id := genFieldId
                   name := "id"
                   type := "bigint"
                   unique := true
                   nullable := false
                   primaryKey := true
                   createdAt := now }]
      indexes := []
      color := color
      createdAt := now
      isView := false }
  (addTable db diagramId tables hist table true, table)

/-- `removeTable`: look up the table, filter it out, `await db.deleteTable`,
then (on fulfilment, if the table existed and `updateHistory`) record. -/
def removeTable (db : Gateway) (diagramId : String) (tables : List DBTable)
    (hist : HistoryLog) (id : String) (updateHistory : Bool) : OpOut (List DBTable) :=
  let table := getTable tables id
  let newTables := tables.filter (fun table => !(table.id == id))
  let calls := [PersistCall.deleteTableCall diagramId id]
  match db.deleteTableRes id with
  | Except.error e => { store := newTables, history := hist, calls := calls, outcome := Except.error e }
  | Except.ok () =>
      match table with
      | none => { store := newTables, history := hist, calls := calls, outcome := Except.ok () }
      | some t =>
          { store := newTables
            history := recordIf updateHistory hist
              { action := "removeTable"
                redoData := ActionData.tableIdOnly id
                undoData := ActionData.tableOnly t }
            calls := calls
            outcome := Except.ok () }

/-- `updateTable`: look up the previous table, shallow-merge the patch onto
the matching table, `await db.updateTable`, then (on fulfilment, if the
previous table existed and `updateHistory`) record. -/
def updateTable (db : Gateway) (tables : List DBTable) (hist : HistoryLog)
    (id : String) (table : TablePatch) (updateHistory : Bool) : OpOut (List DBTable) :=
  let prevTable := getTable tables id
  let newTables := tables.map (fun t => if t.id == id then applyTablePatch t table else t)
  let calls := [PersistCall.updateTableCall id]
  match db.updateTableRes id with
  | Except.error e => { store := newTables, history := hist, calls := calls, outcome := Except.error e }
  | Except.ok () =>
      match prevTable with
      | none => { store := newTables, history := hist, calls := calls, outcome := Except.ok () }
      | some prev =>
          { store := newTables
            history := recordIf updateHistory hist
              { action := "updateTable"
                redoData := ActionData.tableIdWithPatch id table
                undoData := ActionData.tableIdWithTable id prev }
            calls := calls
            outcome := Except.ok () }

/-- The per-table body of `updateTables`'s map:
`updatedTables.find((t) => t.id === prevTable.id)`, then
`updatedTable ? {...prevTable, ...updatedTable} : prevTable`. -/
def mergeTableUpdate (updatedTables : List TableUpdate) (prevTable : DBTable) : DBTable :=
  match updatedTables.find? (fun t => t.id == prevTable.id) with
  | some updatedTable => applyTableUpdate prevTable updatedTable
  | none => prevTable

/-- The inner `updateTables` closure of `updateTablesState`: merge each
matched update onto its existing table, then keep only tables whose id
appears in the transformation's result. -/
def updateTablesFn (updateFn : List DBTable → List TableUpdate)
    (prevTables : List DBTable) : List DBTable :=
  let updatedTables := updateFn prevTables
  (prevTables.map (mergeTableUpdate updatedTables)).filter
    (fun prevTable => updatedTables.any (fun t => t.id == prevTable.id))

/-- `updateTablesState`: apply the reconciliation to the store, issue one
`db.updateTable` per surviving table and one `db.deleteTable` per dropped
table, `await Promise.all`, then (on fulfilment, if `updateHistory`) record
one action holding the full before/after table sequences. -/
def updateTablesState (db : Gateway) (diagramId : String) (tables : List DBTable)
    (hist : HistoryLog) (updateFn : List DBTable → List TableUpdate)
    (updateHistory : Bool) : OpOut (List DBTable) :=
  let prevTables := tables
  let updatedTables := updateTablesFn updateFn tables
  let tablesToDelete := tables.filter (fun table => !(updatedTables.any (fun t => t.id == table.id)))
  let calls := updatedTables.map (fun t => PersistCall.updateTableCall t.id)
      ++ tablesToDelete.map (fun t => PersistCall.deleteTableCall diagramId t.id)
  let results := updatedTables.map (fun t => db.updateTableRes t.id)
      ++ tablesToDelete.map (fun t => db.deleteTableRes t.id)
  match promiseAll results with
  | Except.error e =>
      { store := updatedTables, history := hist, calls := calls, outcome := Except.error e }
  | Except.ok () =>
      { store := updatedTables
        history := recordIf updateHistory hist
          { action := "updateTablesState"
            redoData := ActionData.tablesOnly updatedTables
            undoData := ActionData.tablesOnly prevTables }
        calls := calls
        outcome := Except.ok () }

/-- The `setTables` functional update of `updateField`. -/
def updateFieldTables (tables : List DBTable) (tableId : String) (fieldId : String)
    (field : FieldPatch) : List DBTable :=
  tables.map (fun table =>
    if table.id == tableId then
      { table with fields := table.fields.map (fun f =>
          if f.id == fieldId then applyFieldPatch f field else f) }
    else table)

/-- `updateField`: apply the in-memory merge, fetch the owning table fresh
from storage (abort silently when storage has no such table), write the full
recomputed field sequence back, then (on fulfilment, if the previous field
existed and `updateHistory`) record. -/
def updateField (db : Gateway) (diagramId : String) (tables : List DBTable)
    (hist : HistoryLog) (tableId : String) (fieldId : String) (field : FieldPatch)
    (updateHistory : Bool) : OpOut (List DBTable) :=
  let prevField := getField tables tableId fieldId
  let newTables := updateFieldTables tables tableId fieldId field
  match db.getTableRes diagramId tableId with
  | none =>
      { store := newTables, history := hist
        calls := [PersistCall.getTableCall diagramId tableId], outcome := Except.ok () }
  | some _ =>
      let calls := [PersistCall.getTableCall diagramId tableId,
                    PersistCall.updateTableCall tableId]
      match db.updateTableRes tableId with
      | Except.error e =>
          { store := newTables, history := hist, calls := calls, outcome := Except.error e }
      | Except.ok () =>
          match prevField with
          | none => { store := newTables, history := hist, calls := calls, outcome := Except.ok () }
          | some pf =>
              { store := newTables
                history := recordIf updateHistory hist
                  { action := "updateField"
                    redoData := ActionData.fieldUpdate tableId fieldId (applyFieldPatch pf field)
                    undoData := ActionData.fieldUpdate tableId fieldId pf }
                calls := calls
                outcome := Except.ok () }

/-- The `setTables` functional update of `removeField`. -/
def removeFieldTables (tables : List DBTable) (tableId : String) (fieldId : String) :
    List DBTable :=
  tables.map (fun table =>
    if table.id == tableId then
      { table with fields := table.fields.filter (fun f => !(f.id == fieldId)) }
    else table)

/-- `removeField`: apply the in-memory filter, fetch the owning table fresh
from storage (abort silently when storage has no such table), write the full
filtered field sequence back, then (on fulfilment, if the previous field
existed and `updateHistory`) record. -/
def removeField (db : Gateway) (diagramId : String) (tables : List DBTable)
    (hist : HistoryLog) (tableId : String) (fieldId : String)
    (updateHistory : Bool) : OpOut (List DBTable) :=
  let prevField := getField tables tableId fieldId
  let newTables := removeFieldTables tables tableId fieldId
  match db.getTableRes diagramId tableId with
  | none =>
      { store := newTables, history := hist
        calls := [PersistCall.getTableCall diagramId tableId], outcome := Except.ok () }
  | some _ =>
      let calls := [PersistCall.getTableCall diagramId tableId,
                    PersistCall.updateTableCall tableId]
      match db.updateTableRes tableId with
      | Except.error e =>
          { store := newTables, history := hist, calls := calls, outcome := Except.error e }
      | Except.ok () =>
          match prevField with
          | none => { store := newTables, history := hist, calls := calls, outcome := Except.ok () }
          | some pf =>
              { store := newTables
                history := recordIf updateHistory hist
                  { action := "removeField"
                    redoData := ActionData.fieldRef tableId fieldId
                    undoData := ActionData.tableIdWithField tableId pf }
                calls := calls
                outcome := Except.ok () }

/-- The `setTables` functional update of `addField`. -/
def addFieldTables (tables : List DBTable) (tableId : String) (field : DBField) :
    List DBTable :=
  tables.map (fun table =>
    if table.id == tableId then { table with fields := table.fields ++ [field] }
    else table)

/-- `addField`: append the field in memory, fetch the owning table fresh from
storage (abort silently when storage has no such table), write the full
extended field sequence back, then (on fulfilment, if `updateHistory`)
record — `addField` has no prior-existence guard. -/
def addField (db : Gateway) (diagramId : String) (tables : List DBTable)
    (hist : HistoryLog) (tableId : String) (field : DBField)
    (updateHistory : Bool) : OpOut (List DBTable) :=
  let newTables := addFieldTables tables tableId field
  match db.getTableRes diagramId tableId with
  | none =>
      { store := newTables, history := hist
        calls := [PersistCall.getTableCall diagramId tableId], outcome := Except.ok () }
  | some _ =>
      let calls := [PersistCall.getTableCall diagramId tableId,
                    PersistCall.updateTableCall tableId]
      match db.updateTableRes tableId with
      | Except.error e =>
          { store := newTables, history := hist, calls := calls, outcome := Except.error e }
      | Except.ok () =>
          { store := newTables
            history := recordIf updateHistory hist
              { action := "addField"
                redoData := ActionData.tableIdWithField tableId field
                undoData := ActionData.fieldRef tableId field.id }
            calls := calls
            outcome := Except.ok () }

/-- `createField`: build a field with a generated id, default name
`field_<n+1>` (`n` = current field count of the table, 0 when the table is
missing), bigint, nullable, non-unique, non-primary, then
`await addField(tableId, field)` (default options) and return the field. -/
def createField (db : Gateway) (diagramId : String) (tables : List DBTable)
    (hist : HistoryLog) (tableId : String) (genFieldId : String) (now : Nat) :
    OpOut (List DBTable) × DBField :=
  let table := getTable tables tableId
  let field : DBField :=
    { id := genFieldId
      name := "field_" ++ toString ((table.map (fun t => t.fields.length)).getD 0 + 1)
      type := "bigint"
      unique := false
      nullable := true
      primaryKey := false
      createdAt := now }
  (addField db diagramId tables hist tableId field true, field)

/-- The `setTables` functional update of `addIndex`. -/
def addIndexTables (tables : List DBTable) (tableId : String) (index : DBIndex) :
    List DBTable :=
  tables.map (fun table =>
    if table.id == tableId then { table with indexes := table.indexes ++ [index] }
    else table)

/-- `addIndex`: same full-sequence-replacement pattern as `addField`, scoped
to the index sequence; records whenever `updateHistory` (no prior guard). -/
def addIndex (db : Gateway) (diagramId : String) (tables : List DBTable)
    (hist : HistoryLog) (tableId : String) (index : DBIndex)
    (updateHistory : Bool) : OpOut (List DBTable) :=
  let newTables := addIndexTables tables tableId index
  match db.getTableRes diagramId tableId with
  | none =>
      { store := newTables, history := hist
        calls := [PersistCall.getTableCall diagramId tableId], outcome := Except.ok () }
  | some _ =>
      let calls := [PersistCall.getTableCall diagramId tableId,
                    PersistCall.updateTableCall tableId]
      match db.updateTableRes tableId with
      | Except.error e =>
          { store := newTables, history := hist, calls := calls, outcome := Except.error e }
      | Except.ok () =>
          { store := newTables
            history := recordIf updateHistory hist
              { action := "addIndex"
                redoData := ActionData.tableIdWithIndex tableId index
                undoData := ActionData.indexRef tableId index.id }
            calls := calls
            outcome := Except.ok () }

/-- The `setTables` functional update of `removeIndex`. -/
def removeIndexTables (tables : List DBTable) (tableId : String) (indexId : String) :
    List DBTable :=
  tables.map (fun table =>
    if table.id == tableId then
      { table with indexes := table.indexes.filter (fun i => !(i.id == indexId)) }
    else table)

/-- `removeIndex`: filter the index out in memory, fetch the owning table
fresh from storage (abort silently when missing), write the filtered index
sequence back, then (on fulfilment, if the previous index existed and
`updateHistory`) record. -/
def removeIndex (db : Gateway) (diagramId : String) (tables : List DBTable)
    (hist : HistoryLog) (tableId : String) (indexId : String)
    (updateHistory : Bool) : OpOut (List DBTable) :=
  let prevIndex := getIndex tables tableId indexId
  let newTables := removeIndexTables tables tableId indexId
  match db.getTableRes diagramId tableId with
  | none =>
      { store := newTables, history := hist
        calls := [PersistCall.getTableCall diagramId tableId], outcome := Except.ok () }
  | some _ =>
      let calls := [PersistCall.getTableCall diagramId tableId,
                    PersistCall.updateTableCall tableId]
      match db.updateTableRes tableId with
      | Except.error e =>
          { store := newTables, history := hist, calls := calls, outcome := Except.error e }
      | Except.ok () =>
          match prevIndex with
          | none => { store := newTables, history := hist, calls := calls, outcome := Except.ok () }
          | some pi =>
              { store := newTables
                history := recordIf updateHistory hist
                  { action := "removeIndex"
                    redoData := ActionData.indexRef tableId indexId
                    undoData := ActionData.tableIdWithIndex tableId pi }
                calls := calls
                outcome := Except.ok () }

/-- `createIndex`: build an index with a generated id, default name
`index_<n+1>`, empty field-id list, non-unique, then
`await addIndex(tableId, index)` (default options) and return it. -/
def createIndex (db : Gateway) (diagramId : String) (tables : List DBTable)
    (hist : HistoryLog) (tableId : String) (genIndexId : String) (now : Nat) :
    OpOut (List DBTable) × DBIndex :=
  let table := getTable tables tableId
  let index : DBIndex :=
    { id := genIndexId
      name := "index_" ++ toString ((table.map (fun t => t.indexes.length)).getD 0 + 1)
      fieldIds := []
      unique := false
      createdAt := now }
  (addIndex db diagramId tables hist tableId index true, index)

/-- The `setTables` functional update of `updateIndex`. -/
def updateIndexTables (tables : List DBTable) (tableId : String) (indexId : String)
    (index : IndexPatch) : List DBTable :=
  tables.map (fun table =>
    if table.id == tableId then
      { table with indexes := table.indexes.map (fun i =>
          if i.id == indexId then applyIndexPatch i index else i) }
    else table)

/-- `updateIndex`: merge the patch onto the matching index in memory, fetch
the owning table fresh from storage (abort silently when missing), write the
recomputed index sequence back, then (on fulfilment, if the previous index
existed and `updateHistory`) record. -/
def updateIndex (db : Gateway) (diagramId : String) (tables : List DBTable)
    (hist : HistoryLog) (tableId : String) (indexId : String) (index : IndexPatch)
    (updateHistory : Bool) : OpOut (List DBTable) :=
  let prevIndex := getIndex tables tableId indexId
  let newTables := updateIndexTables tables tableId indexId index
  match db.getTableRes diagramId tableId with
  | none =>
      { store := newTables, history := hist
        calls := [PersistCall.getTableCall diagramId tableId], outcome := Except.ok () }
  | some _ =>
      let calls := [PersistCall.getTableCall diagramId tableId,
                    PersistCall.updateTableCall tableId]
      match db.updateTableRes tableId with
      | Except.error e =>
          { store := newTables, history := hist, calls := calls, outcome := Except.error e }
      | Except.ok () =>
          match prevIndex with
          | none => { store := newTables, history := hist, calls := calls, outcome := Except.ok () }
          | some pi =>
              { store := newTables
                history := recordIf updateHistory hist
                  { action := "updateIndex"
                    redoData := ActionData.indexUpdatePatch tableId indexId index
                    undoData := ActionData.indexUpdateFull tableId indexId pi }
                calls := calls
                outcome := Except.ok () }

/-- `addRelationship`: append, `await db.addRelationship`, then (on
fulfilment, if `updateHistory`) record. -/
def addRelationship (db : Gateway) (diagramId : String)
    (relationships : List DBRelationship) (hist : HistoryLog)
    (relationship : DBRelationship) (updateHistory : Bool) :
    OpOut (List DBRelationship) :=
  let newRelationships := relationships ++ [relationship]
  let calls := [PersistCall.addRelationshipCall diagramId relationship.id]
  match db.addRelationshipRes relationship.id with
  | Except.error e =>
      { store := newRelationships, history := hist, calls := calls, outcome := Except.error e }
  | Except.ok () =>
      { store := newRelationships
        history := recordIf updateHistory hist
          { action := "addRelationship"
            redoData := ActionData.relationshipOnly relationship
            undoData := ActionData.relationshipIdOnly relationship.id }
        calls := calls
        outcome := Except.ok () }

/-- `addRelationships` (bulk): append all, persist each independently via
`Promise.all`, then (on joint fulfilment, if `updateHistory`) record one
composite action. -/
def addRelationships (db : Gateway) (diagramId : String)
    (currentRelationships : List DBRelationship) (hist : HistoryLog)
    (relationships : List DBRelationship) (updateHistory : Bool) :
    OpOut (List DBRelationship) :=
  let newRelationships := currentRelationships ++ relationships
  let calls := relationships.map (fun r => PersistCall.addRelationshipCall diagramId r.id)
  match promiseAll (relationships.map (fun r => db.addRelationshipRes r.id)) with
  | Except.error e =>
      { store := newRelationships, history := hist, calls := calls, outcome := Except.error e }
  | Except.ok () =>
      { store := newRelationships
        history := recordIf updateHistory hist
          { action := "addRelationships"
            redoData := ActionData.relationshipsOnly relationships
            undoData := ActionData.relationshipIdsOnly (relationships.map (fun r => r.id)) }
        calls := calls
        outcome := Except.ok () }

/-- `createRelationship`: build a relationship with a generated id, name
`<sourceTable>_<targetTable>_fk` (empty string for a missing table name),
fixed `one_to_one` type, then `await addRelationship(relationship)`
(default options) and return it. -/
def createRelationship (db : Gateway) (diagramId : String) (tables : List DBTable)
    (relationships : List DBRelationship) (hist : HistoryLog)
    (sourceTableId : String) (targetTableId : String)
    (sourceFieldId : String) (targetFieldId : String)
    (genRelationshipId : String) (now : Nat) :
    OpOut (List DBRelationship) × DBRelationship :=
  let sourceTableName := ((getTable tables sourceTableId).map (fun t => t.name)).getD ""
  let targetTableName := ((getTable tables targetTableId).map (fun t => t.name)).getD ""
  let relationship : DBRelationship :=
    { id := genRelationshipId
      name := sourceTableName ++ "_" ++ targetTableName ++ "_fk"
      sourceTableId := sourceTableId
      targetTableId := targetTableId
      sourceFieldId := sourceFieldId
      targetFieldId := targetFieldId
      type := "one_to_one"
      createdAt := now }
  (addRelationship db diagramId relationships hist relationship true, relationship)

/-- `removeRelationship`: look the relationship up, filter it out,
`await db.deleteRelationship`, then (on fulfilment, if it existed and
`updateHistory`) record. -/
def removeRelationship (db : Gateway) (diagramId : String)
    (relationships : List DBRelationship) (hist : HistoryLog)
    (id : String) (updateHistory : Bool) : OpOut (List DBRelationship) :=
  let relationship := getRelationship relationships id
  let newRelationships := relationships.filter (fun relationship => !(relationship.id == id))
  let calls := [PersistCall.deleteRelationshipCall diagramId id]
  match db.deleteRelationshipRes id with
  | Except.error e =>
      { store := newRelationships, history := hist, calls := calls, outcome := Except.error e }
  | Except.ok () =>
      match relationship with
      | none =>
          { store := newRelationships, history := hist, calls := calls, outcome := Except.ok () }
      | some r =>
          { store := newRelationships
            history := recordIf updateHistory hist
              { action := "removeRelationship"
                redoData := ActionData.relationshipIdOnly id
                undoData := ActionData.relationshipOnly r }
            calls := calls
            outcome := Except.ok () }

/-- `removeRelationships` (bulk): `prevRelationships` is computed with the
same `!ids.includes(relationship.id)` filter as the new store — i.e. it is
the set of surviving relationships, not the removed ones.  Delete each id
via `Promise.all`, then (on joint fulfilment, if `updateHistory`) record one
composite action with `undoData = {relationships: prevRelationships}`. -/
def removeRelationships (db : Gateway) (diagramId : String)
    (relationships : List DBRelationship) (hist : HistoryLog)
    (ids : List String) (updateHistory : Bool) : OpOut (List DBRelationship) :=
  let prevRelationships := relationships.filter (fun relationship => !(ids.contains relationship.id))
  let newRelationships := relationships.filter (fun relationship => !(ids.contains relationship.id))
  let calls := ids.map (fun id => PersistCall.deleteRelationshipCall diagramId id)
  match promiseAll (ids.map (fun id => db.deleteRelationshipRes id)) with
  | Except.error e =>
      { store := newRelationships, history := hist, calls := calls, outcome := Except.error e }
  | Except.ok () =>
      { store := newRelationships
        history := recordIf updateHistory hist
          { action := "removeRelationships"
            redoData := ActionData.relationshipIdsOnly ids
            undoData := ActionData.relationshipsOnly prevRelationships }
        calls := calls
        outcome := Except.ok () }

/-- `updateRelationship`: merge the patch onto the matching relationship,
`await db.updateRelationship`, then (on fulfilment, if the previous
relationship existed and `updateHistory`) record. -/
def updateRelationship (db : Gateway) (relationships : List DBRelationship)
    (hist : HistoryLog) (id : String) (relationship : RelationshipPatch)
    (updateHistory : Bool) : OpOut (List DBRelationship) :=
  let prevRelationship := getRelationship relationships id
  let newRelationships := relationships.map (fun r =>
    if r.id == id then applyRelationshipPatch r relationship else r)
  let calls := [PersistCall.updateRelationshipCall id]
  match db.updateRelationshipRes id with
  | Except.error e =>
      { store := newRelationships, history := hist, calls := calls, outcome := Except.error e }
  | Except.ok () =>
      match prevRelationship with
      | none =>
          { store := newRelationships, history := hist, calls := calls, outcome := Except.ok () }
      | some prev =>
          { store := newRelationships
            history := recordIf updateHistory hist
              { action := "updateRelationship"
                redoData := ActionData.relationshipUpdatePatch id relationship
                undoData := ActionData.relationshipUpdateFull id prev }
            calls := calls
            outcome := Except.ok () }

/-- The whole in-memory store of the provider: diagram id, name, database
type, table sequence, relationship sequence. -/
structure Store where
  diagramId : String
  diagramName : String
  databaseType : String
  tables : List DBTable
  relationships : List DBRelationship
deriving DecidableEq, Repr

/-- `loadDiagram`: fetch the full diagram; when found, replace every piece
of the store; when not found, touch nothing.  The fetched value (or the
not-found signal) is returned to the caller; the history log is never
touched. -/
def loadDiagram (db : Gateway) (st : Store) (diagramId : String) :
    Store × Option Diagram × List PersistCall :=
  match db.getDiagramRes diagramId with
  | none => (st, none, [PersistCall.getDiagramCall diagramId])
  | some diagram =>
      ({ diagramId := diagram.id
         diagramName := diagram.name
         databaseType := diagram.databaseType
         tables := diagram.tables
         relationships := diagram.relationships },
       some diagram, [PersistCall.getDiagramCall diagramId])

/-!  Helper lemmas shared by the claim theorems. -/

/-- A history log evolves by one recorded mutation either not at all or by
pushing one action and emptying the redo branch. -/
def historyContract (hist hist' : HistoryLog) : Prop :=
  hist' = hist ∨ ∃ a : Action, hist' = { undoStack := a :: hist.undoStack, redoStack := [] }

theorem historyContract_recordIf (c : Bool) (hist : HistoryLog) (a : Action) :
    historyContract hist (recordIf c hist a) := by
  cases c
  · exact Or.inl rfl
  · exact Or.inr ⟨a, rfl⟩

theorem historyContract_refl (hist : HistoryLog) : historyContract hist hist :=
  Or.inl rfl

theorem promiseAll_ok (rs : List (Except String Unit))
    (h : ∀ r ∈ rs, r = Except.ok ()) : promiseAll rs = Except.ok () := by
  induction rs with
  | nil => rfl
  | cons r rest ih =>
      have hr := h r (List.mem_cons_self r rest)
      subst hr
      exact ih (fun r' hr' => h r' (List.mem_cons_of_mem _ hr'))

theorem getField_beq (tables : List DBTable) (tableId fieldId : String) (f : DBField)
    (h : getField tables tableId fieldId = some f) : (f.id == fieldId) = true := by
  unfold getField at h
  cases hg : getTable tables tableId with
  | none => rw [hg] at h; simp at h
  | some t0 =>
      rw [hg] at h
      simp only [Option.bind_some, Option.some_bind] at h
      have hf := List.find?_some h
      exact hf

/-- The in-memory table rewrite of `updateField` is the same in every
persistence branch: it happens before any `await`. -/
theorem updateField_store (db : Gateway) (diagramId : String) (tables : List DBTable)
    (hist : HistoryLog) (tableId fieldId : String) (field : FieldPatch) (uh : Bool) :
    (updateField db diagramId tables hist tableId fieldId field uh).store
      = updateFieldTables tables tableId fieldId field := by
  unfold updateField
  cases db.getTableRes diagramId tableId with
  | none => rfl
  | some t =>
      cases db.updateTableRes tableId with
      | error e => rfl
      | ok u =>
          cases u
          cases getField tables tableId fieldId <;> rfl

/-- The in-memory table rewrite of `removeField` is persistence-independent. -/
theorem removeField_store (db : Gateway) (diagramId : String) (tables : List DBTable)
    (hist : HistoryLog) (tableId fieldId : String) (uh : Bool) :
    (removeField db diagramId tables hist tableId fieldId uh).store
      = removeFieldTables tables tableId fieldId := by
  unfold removeField
  cases db.getTableRes diagramId tableId with
  | none => rfl
  | some t =>
      cases db.updateTableRes tableId with
      | error e => rfl
      | ok u =>
          cases u
          cases getField tables tableId fieldId <;> rfl

/-- The in-memory table rewrite of `addField` is persistence-independent. -/
theorem addField_store (db : Gateway) (diagramId : String) (tables : List DBTable)
    (hist : HistoryLog) (tableId : String) (field : DBField) (uh : Bool) :
    (addField db diagramId tables hist tableId field uh).store
      = addFieldTables tables tableId field := by
  unfold addField
  cases db.getTableRes diagramId tableId with
  | none => rfl
  | some t =>
      cases db.updateTableRes tableId with
      | error e => rfl
      | ok u => cases u; rfl

/-- The in-memory table rewrite of `addIndex` is persistence-independent. -/
theorem addIndex_store (db : Gateway) (diagramId : String) (tables : List DBTable)
    (hist : HistoryLog) (tableId : String) (index : DBIndex) (uh : Bool) :
    (addIndex db diagramId tables hist tableId index uh).store
      = addIndexTables tables tableId index := by
  unfold addIndex
  cases db.getTableRes diagramId tableId with
  | none => rfl
  | some t =>
      cases db.updateTableRes tableId with
      | error e => rfl
      | ok u => cases u; rfl

/-- The in-memory table rewrite of `removeIndex` is persistence-independent. -/
theorem removeIndex_store (db : Gateway) (diagramId : String) (tables : List DBTable)
    (hist : HistoryLog) (tableId indexId : String) (uh : Bool) :
    (removeIndex db diagramId tables hist tableId indexId uh).store
      = removeIndexTables tables tableId indexId := by
  unfold removeIndex
  cases db.getTableRes diagramId tableId with
  | none => rfl
  | some t =>
      cases db.updateTableRes tableId with
      | error e => rfl
      | ok u =>
          cases u
          cases getIndex tables tableId indexId <;> rfl

/-- The in-memory table rewrite of `updateIndex` is persistence-independent. -/
theorem updateIndex_store (db : Gateway) (diagramId : String) (tables : List DBTable)
    (hist : HistoryLog) (tableId indexId : String) (index : IndexPatch) (uh : Bool) :
    (updateIndex db diagramId tables hist tableId indexId index uh).store
      = updateIndexTables tables tableId indexId index := by
  unfold updateIndex
  cases db.getTableRes diagramId tableId with
  | none => rfl
  | some t =>
      cases db.updateTableRes tableId with
      | error e => rfl
      | ok u =>
          cases u
          cases getIndex tables tableId indexId <;> rfl

theorem DBTable.eta_fields (t : DBTable) :
    ({ t with fields := t.fields } : DBTable) = t := by
  cases t
  rfl

/-- Undoing a `removeField` by re-adding the removed field restores the
original table sequence, provided the removed field was the last field of
its table (and its id occurs only there). -/
theorem addFieldTables_removeFieldTables (tables : List DBTable)
    (tableId fieldId : String) (f : DBField) (hf : (f.id == fieldId) = true)
    (hlast : ∀ t ∈ tables, (t.id == tableId) = true →
      ∃ init, t.fields = init ++ [f] ∧ ∀ g ∈ init, (g.id == fieldId) = false) :
    addFieldTables (removeFieldTables tables tableId fieldId) tableId f = tables := by
  unfold addFieldTables removeFieldTables
  rw [List.map_map]
  have key : ∀ t ∈ tables,
      ((fun table : DBTable =>
          if table.id == tableId then { table with fields := table.fields ++ [f] } else table) ∘
        (fun table : DBTable =>
          if table.id == tableId then
            { table with fields := table.fields.filter (fun g => !(g.id == fieldId)) }
          else table)) t = id t := by
    intro t ht
    simp only [Function.comp, id]
    by_cases h : (t.id == tableId) = true
    · obtain ⟨init, hfields, hinit⟩ := hlast t ht h
      have hfilter : t.fields.filter (fun g => !(g.id == fieldId)) = init := by
        rw [hfields, List.filter_append]
        have h1 : init.filter (fun g => !(g.id == fieldId)) = init :=
          List.filter_eq_self.mpr (fun g hg => by rw [hinit g hg]; rfl)
        have h2 : List.filter (fun g => !(g.id == fieldId)) [f] = [] := by
          simp [List.filter, hf]
        rw [h1, h2, List.append_nil]
      simp only [h, if_true, hfilter]
      rw [show init ++ [f] = t.fields from hfields.symm]
    · simp [h]
  rw [List.map_congr_left key, List.map_id]

/-- Merging a matched update never changes a table's id: the update was
found by `t.id === prevTable.id`, so the spread writes the same id back. -/
theorem mergeTableUpdate_id (updatedTables : List TableUpdate) (t : DBTable) :
    (mergeTableUpdate updatedTables t).id = t.id := by
  unfold mergeTableUpdate
  cases h : updatedTables.find? (fun u => u.id == t.id) with
  | none => rfl
  | some u =>
      have hu := List.find?_some h
      simp only [applyTableUpdate]
      exact eq_of_beq hu

/-- The reconciliation is a filter of the prior sequence followed by the
per-table merge: membership is decided by the prior table's own id. -/
theorem updateTablesFn_eq (updateFn : List DBTable → List TableUpdate)
    (tables : List DBTable) :
    updateTablesFn updateFn tables
      = (tables.filter (fun t => (updateFn tables).any (fun u => u.id == t.id))).map
          (mergeTableUpdate (updateFn tables)) := by
  unfold updateTablesFn
  rw [List.filter_map]
  congr 1
  apply List.filter_congr
  intro t _
  simp only [Function.comp, mergeTableUpdate_id]

/-- Id sequence of the reconciliation result: the prior id sequence filtered
by membership in the transformation's result. -/
theorem reconcile_ids (us : List TableUpdate) (l : List DBTable) :
    ((l.map (mergeTableUpdate us)).filter
        (fun prevTable => us.any (fun t => t.id == prevTable.id))).map (fun t => t.id)
      = (l.map (fun t => t.id)).filter (fun i => us.any (fun t => t.id == i)) := by
  induction l with
  | nil => rfl
  | cons t rest ih =>
      simp only [List.map_cons, List.filter_cons, mergeTableUpdate_id]
      by_cases h : (us.any (fun u => u.id == t.id)) = true
      · simp only [h, if_true, List.map_cons, mergeTableUpdate_id, ih]
      · simp only [Bool.not_eq_true] at h
        simp [h, ih]

/-!  Concrete fixtures used by witnesses and counterexamples. -/

/-- A primary-key field, first in `tblA`'s field sequence. -/
def fldId : DBField :=
  { id := "f1", name := "id", type := "bigint"
    unique := true, nullable := false, primaryKey := true, createdAt := 0 }

/-- A nullable text field, last in `tblA`'s field sequence. -/
def fldEmail : DBField :=
  { id := "f2", name := "email", type := "text"
    unique := false, nullable := true, primaryKey := false, createdAt := 0 }

/-- A two-field table. -/
def tblA : DBTable :=
  { id := "t1", name := "table_1", x := 0, y := 0
    fields := [fldId, fldEmail], indexes := [], color := "blue"
    createdAt := 0, isView := false }

/-- Second table fixture. -/
def tblB : DBTable :=
  { id := "t2", name := "table_2", x := 1, y := 1
    fields := [], indexes := [], color := "green", createdAt := 0, isView := false }

/-- Third table fixture. -/
def tblC : DBTable :=
  { id := "t3", name := "table_3", x := 2, y := 2
    fields := [], indexes := [], color := "red", createdAt := 0, isView := false }

/-- Relationship fixture with id `r1`. -/
def relA : DBRelationship :=
  { id := "r1", name := "table_1_table_2_fk"
    sourceTableId := "t1", targetTableId := "t2"
    sourceFieldId := "f1", targetFieldId := "f2"
    type := "one_to_one", createdAt := 0 }

/-- Relationship fixture with id `r2`. -/
def relB : DBRelationship :=
  { id := "r2", name := "table_2_table_3_fk"
    sourceTableId := "t2", targetTableId := "t3"
    sourceFieldId := "f2", targetFieldId := "f3"
    type := "one_to_one", createdAt := 0 }

/-- Gateway whose every write fulfils, whose `getTable` finds `tblA` and
whose `getDiagram` finds nothing. -/
def gwOk : Gateway :=
  { getTableRes := fun _ _ => some tblA
    getDiagramRes := fun _ => none
    updateDiagramRes := Except.ok ()
    addTableRes := fun _ => Except.ok ()
    updateTableRes := fun _ => Except.ok ()
    deleteTableRes := fun _ => Except.ok ()
    addRelationshipRes := fun _ => Except.ok ()
    deleteRelationshipRes := fun _ => Except.ok ()
    updateRelationshipRes := fun _ => Except.ok () }

/-- Gateway whose `getTable` finds nothing. -/
def gwNoTable : Gateway :=
  { gwOk with getTableRes := fun _ _ => none }

/-- Gateway whose `updateTable` rejects. -/
def gwUpdateFail : Gateway :=
  { gwOk with updateTableRes := fun _ => Except.error "storage rejected" }

/-- An empty history log. -/
def hist0 : HistoryLog := { undoStack := [], redoStack := [] }

/-- Index fixture. -/
def idxA : DBIndex :=
  { id := "i1", name := "index_1", fieldIds := ["f1"], unique := true, createdAt := 0 }

/-- Index patch fixture. -/
def idxPatchA : IndexPatch := { name := some "renamed_index" }

/-- Store fixture for the `loadDiagram` claim. -/
def storeA : Store :=
  { diagramId := "d1", diagramName := "demo", databaseType := "generic"
    tables := [tblA], relationships := [relA] }

/-!  Claim theorems. -/

/-- C7: every call to `createTable` produces and adds a table carrying the
freshly generated id, named `table_<n+1>` where `n` is the current number of
tables, with exactly one generated field named `id` of type bigint with
`primaryKey` set, an empty index sequence and the random color; the returned
table is exactly the one appended to the store.  The generated ids, random
color and timestamp enter the embedding as the `genTableId`, `genFieldId`,
`color` and `now` arguments. -/
theorem createTable_defaults (db : Gateway) (diagramId : String)
    (tables : List DBTable) (hist : HistoryLog)
    (genTableId genFieldId color : String) (now : Nat) :
    let p := createTable db diagramId tables hist genTableId genFieldId color now
    p.2.id = genTableId
    ∧ p.2.name = "table_" ++ toString (tables.length + 1)
    ∧ p.2.fields = [{ id := genFieldId, name := "id", type := "bigint"
                      unique := true, nullable := false, primaryKey := true
                      createdAt := now }]
    ∧ p.2.indexes = []
    ∧ p.2.color = color
    ∧ p.1.store = tables ++ [p.2] := by
  refine ⟨rfl, rfl, rfl, rfl, rfl, ?_⟩
  show (addTable db diagramId tables hist _ true).store = _
  unfold addTable
  cases db.addTableRes genTableId with
  | error e => rfl
  | ok u => cases u; rfl

/-- C9: `updateTablesState` can never add a table.  The operation's store is
the reconciliation `updateTablesFn`, and the id sequence of the result is
exactly the prior id sequence filtered by membership in the transformation's
result: entries whose id matches no current table are ignored, and the
survivors keep their relative order from the prior sequence (the
transformation result's own order only enters through the order-insensitive
membership test). -/
theorem updateTablesState_no_additions (db : Gateway) (diagramId : String)
    (tables : List DBTable) (hist : HistoryLog)
    (updateFn : List DBTable → List TableUpdate) (uh : Bool) :
    (updateTablesState db diagramId tables hist updateFn uh).store
        = updateTablesFn updateFn tables
    ∧ (updateTablesFn updateFn tables).map (fun t => t.id)
        = (tables.map (fun t => t.id)).filter
            (fun i => (updateFn tables).any (fun t => t.id == i)) := by
  constructor
  · simp only [updateTablesState]
    split <;> rfl
  · exact reconcile_ids (updateFn tables) tables

/-- C10: `loadDiagram` is atomic on failure — when the gateway returns
not-found for the requested diagram id, the whole store (diagram id, name,
database type, tables, relationships) is unchanged and the not-found result
is returned to the caller. -/
theorem loadDiagram_atomic (db : Gateway) (st : Store) (diagramId : String)
    (h : db.getDiagramRes diagramId = none) :
    loadDiagram db st diagramId = (st, none, [PersistCall.getDiagramCall diagramId]) := by
  unfold loadDiagram
  rw [h]

/-- C10 witness: loading a missing diagram id against a concrete gateway and
store leaves the concrete store untouched and returns the not-found signal. -/
theorem loadDiagram_atomic_witness :
    loadDiagram gwOk storeA "d9" = (storeA, none, [PersistCall.getDiagramCall "d9"]) :=
  loadDiagram_atomic gwOk storeA "d9" rfl

/-- History log with an empty undo stack and a non-empty redo branch. -/
def histR : HistoryLog :=
  { undoStack := []
    redoStack := [{ action := "updateDiagramName"
                    redoData := ActionData.nameOnly "a"
                    undoData := ActionData.nameOnly "b" }] }

/-- C8 counterexample: `updateDatabaseType` and `updateDiagramId` append no
Action and do not clear the redo branch — run against a history log whose
redo branch is non-empty, both leave it non-empty and the undo stack
empty, refuting the claim that these operations record an invertible Action
and clear the redo branch. -/
theorem metadata_ops_no_history_ce :
    (updateDatabaseType gwOk "d1" histR "postgresql").history = histR
    ∧ (updateDiagramId gwOk "d1" histR "d2").history = histR
    ∧ histR.redoStack ≠ []
    ∧ histR.undoStack = [] :=
  ⟨rfl, rfl, by decide, rfl⟩

/-- C8 amended: `updateDatabaseType` and `updateDiagramId` apply the
in-memory mutation and persist it through one `updateDiagram` call keyed by
the current (for the id rotation: previous) diagram id, but they take no
`updateHistory` flag and never append an Action to the History Log or touch
its redo branch; among diagram-metadata operations only `updateDiagramName`
records history. -/
theorem metadata_ops_no_history (db : Gateway) (diagramId : String)
    (hist : HistoryLog) (databaseType id : String) :
    (updateDatabaseType db diagramId hist databaseType).history = hist
    ∧ (updateDatabaseType db diagramId hist databaseType).store = databaseType
    ∧ (updateDatabaseType db diagramId hist databaseType).calls
        = [PersistCall.updateDiagramCall diagramId]
    ∧ (updateDatabaseType db diagramId hist databaseType).outcome = db.updateDiagramRes
    ∧ (updateDiagramId db diagramId hist id).history = hist
    ∧ (updateDiagramId db diagramId hist id).store = id
    ∧ (updateDiagramId db diagramId hist id).calls
        = [PersistCall.updateDiagramCall diagramId]
    ∧ (updateDiagramId db diagramId hist id).outcome = db.updateDiagramRes :=
  ⟨rfl, rfl, rfl, rfl, rfl, rfl, rfl, rfl⟩

/-- Field patch renaming a field. -/
def patchName : FieldPatch := { name := some "renamed" }

/-- C5: optimistic update under persistence failure — when the gateway's
`updateTable` rejects during `updateField`, the in-memory store still holds
the merged field update (the mutation was applied before the persistence
call and is never rolled back), the operation's settled outcome is the
failure, and (since the recording statements sit after the failed `await`)
the history log is untouched. -/
theorem updateField_optimistic (db : Gateway) (diagramId : String)
    (tables : List DBTable) (hist : HistoryLog) (tableId fieldId : String)
    (field : FieldPatch) (uh : Bool) (dbt : DBTable) (e : String)
    (hget : db.getTableRes diagramId tableId = some dbt)
    (hupd : db.updateTableRes tableId = Except.error e) :
    (updateField db diagramId tables hist tableId fieldId field uh).store
        = updateFieldTables tables tableId fieldId field
    ∧ (updateField db diagramId tables hist tableId fieldId field uh).outcome
        = Except.error e
    ∧ (updateField db diagramId tables hist tableId fieldId field uh).history = hist := by
  refine ⟨updateField_store db diagramId tables hist tableId fieldId field uh, ?_, ?_⟩ <;>
    simp only [updateField, hget, hupd]

/-- C5 witness: a concrete field rename against a gateway whose
`updateTable` rejects keeps the renamed field in the store and reports the
rejection. -/
theorem updateField_optimistic_witness :
    (updateField gwUpdateFail "d1" [tblA] hist0 "t1" "f1" patchName true).store
        = updateFieldTables [tblA] "t1" "f1" patchName
    ∧ (updateField gwUpdateFail "d1" [tblA] hist0 "t1" "f1" patchName true).outcome
        = Except.error "storage rejected"
    ∧ (updateField gwUpdateFail "d1" [tblA] hist0 "t1" "f1" patchName true).history = hist0 :=
  updateField_optimistic gwUpdateFail "d1" [tblA] hist0 "t1" "f1" patchName true tblA
    "storage rejected" rfl rfl

/-- C3 counterexample: removing relationship `r1` out of `{r1, r2}` records
an action whose `undoData` is the surviving relationship list `[relB]`, not
the removed set `[relA]` — the `!ids.includes` filter stores the pre-removal
survivors, refuting the claim that `undoData` holds the removed entities. -/
theorem removeRelationships_undoData_ce :
    (removeRelationships gwOk "d1" [relA, relB] hist0 ["r1"] true).history.undoStack
        = [{ action := "removeRelationships"
             redoData := ActionData.relationshipIdsOnly ["r1"]
             undoData := ActionData.relationshipsOnly [relB] }]
    ∧ [relA, relB].filter (fun r => ["r1"].contains r.id) = [relA]
    ∧ ActionData.relationshipsOnly [relB] ≠ ActionData.relationshipsOnly [relA] := by
  refine ⟨?_, by decide, by decide⟩
  rfl

/-- C3 amended: for every `removeRelationships(ids)` call with
`updateHistory = true` whose deletes all fulfil, the single composite Action
it records holds as its `undoData` the surviving relationships — those whose
id is *not* in `ids` (the pre-removal survivors), which is also exactly the
new store contents — rather than the removed entities. -/
theorem removeRelationships_undoData (db : Gateway) (diagramId : String)
    (relationships : List DBRelationship) (hist : HistoryLog) (ids : List String)
    (hdel : ∀ id, db.deleteRelationshipRes id = Except.ok ()) :
    (removeRelationships db diagramId relationships hist ids true).store
        = relationships.filter (fun r => !(ids.contains r.id))
    ∧ (removeRelationships db diagramId relationships hist ids true).history.undoStack
        = { action := "removeRelationships"
            redoData := ActionData.relationshipIdsOnly ids
            undoData := ActionData.relationshipsOnly
                (relationships.filter (fun r => !(ids.contains r.id))) } :: hist.undoStack
    ∧ (removeRelationships db diagramId relationships hist ids true).history.redoStack = [] := by
  have hall : promiseAll (ids.map (fun id => db.deleteRelationshipRes id)) = Except.ok () := by
    apply promiseAll_ok
    intro r hr
    obtain ⟨i, _, rfl⟩ := List.mem_map.mp hr
    exact hdel i
  simp [removeRelationships, hall, recordIf, resetRedoStack, addUndoAction]

/-- C3 witness: the concrete two-relationship removal of the counterexample,
settled through the amended theorem. -/
theorem removeRelationships_undoData_witness :
    (removeRelationships gwOk "d1" [relA, relB] hist0 ["r1"] true).store
        = [relA, relB].filter (fun r => !(["r1"].contains r.id))
    ∧ (removeRelationships gwOk "d1" [relA, relB] hist0 ["r1"] true).history.undoStack
        = { action := "removeRelationships"
            redoData := ActionData.relationshipIdsOnly ["r1"]
            undoData := ActionData.relationshipsOnly
                ([relA, relB].filter (fun r => !(["r1"].contains r.id))) } :: hist0.undoStack
    ∧ (removeRelationships gwOk "d1" [relA, relB] hist0 ["r1"] true).history.redoStack = [] :=
  removeRelationships_undoData gwOk "d1" [relA, relB] hist0 ["r1"] (fun _ => rfl)

/-- C6 counterexample: `updateField` on a field id that the in-memory lookup
does not find (`zz`), with the owning table present in storage, still issues
the `updateTable` persistence call — the operation skips history recording
but does not abort before persisting, refuting the claimed short-circuit on
an entity lookup that finds nothing. -/
theorem updateField_notFound_persists_ce :
    getField [tblA] "t1" "zz" = none
    ∧ (updateField gwOk "d1" [tblA] hist0 "t1" "zz" patchName true).calls
        = [PersistCall.getTableCall "d1" "t1", PersistCall.updateTableCall "t1"]
    ∧ (updateField gwOk "d1" [tblA] hist0 "t1" "zz" patchName true).history = hist0 := by
  refine ⟨by decide, ?_, ?_⟩ <;> rfl

/-- C6 amended: the abort-before-persisting short-circuit belongs to the
*storage-gateway* table lookup: when `db.getTable` returns not-found, each
of the six field/index operations stops after that read (no `updateTable`
call), skips history recording, and the in-memory mutation stays applied.
When instead only the in-memory prior-entity lookup finds nothing (here:
`updateField` with a missing field) history is still skipped but the
persistence call is issued anyway. -/
theorem notFound_short_circuit (db1 db2 : Gateway) (diagramId : String)
    (tables : List DBTable) (hist : HistoryLog)
    (tableId fieldId indexId : String) (fpatch : FieldPatch) (ipatch : IndexPatch)
    (field : DBField) (index : DBIndex) (dbt : DBTable) (uh : Bool)
    (h1 : db1.getTableRes diagramId tableId = none)
    (h2 : db2.getTableRes diagramId tableId = some dbt)
    (h3 : db2.updateTableRes tableId = Except.ok ())
    (h4 : getField tables tableId fieldId = none) :
    ((updateField db1 diagramId tables hist tableId fieldId fpatch uh).calls
        = [PersistCall.getTableCall diagramId tableId]
      ∧ (updateField db1 diagramId tables hist tableId fieldId fpatch uh).history = hist
      ∧ (updateField db1 diagramId tables hist tableId fieldId fpatch uh).store
          = updateFieldTables tables tableId fieldId fpatch)
    ∧ ((removeField db1 diagramId tables hist tableId fieldId uh).calls
        = [PersistCall.getTableCall diagramId tableId]
      ∧ (removeField db1 diagramId tables hist tableId fieldId uh).history = hist
      ∧ (removeField db1 diagramId tables hist tableId fieldId uh).store
          = removeFieldTables tables tableId fieldId)
    ∧ ((addField db1 diagramId tables hist tableId field uh).calls
        = [PersistCall.getTableCall diagramId tableId]
      ∧ (addField db1 diagramId tables hist tableId field uh).history = hist
      ∧ (addField db1 diagramId tables hist tableId field uh).store
          = addFieldTables tables tableId field)
    ∧ ((addIndex db1 diagramId tables hist tableId index uh).calls
        = [PersistCall.getTableCall diagramId tableId]
      ∧ (addIndex db1 diagramId tables hist tableId index uh).history = hist
      ∧ (addIndex db1 diagramId tables hist tableId index uh).store
          = addIndexTables tables tableId index)
    ∧ ((updateIndex db1 diagramId tables hist tableId indexId ipatch uh).calls
        = [PersistCall.getTableCall diagramId tableId]
      ∧ (updateIndex db1 diagramId tables hist tableId indexId ipatch uh).history = hist
      ∧ (updateIndex db1 diagramId tables hist tableId indexId ipatch uh).store
          = updateIndexTables tables tableId indexId ipatch)
    ∧ ((removeIndex db1 diagramId tables hist tableId indexId uh).calls
        = [PersistCall.getTableCall diagramId tableId]
      ∧ (removeIndex db1 diagramId tables hist tableId indexId uh).history = hist
      ∧ (removeIndex db1 diagramId tables hist tableId indexId uh).store
          = removeIndexTables tables tableId indexId)
    ∧ ((updateField db2 diagramId tables hist tableId fieldId fpatch uh).history = hist
      ∧ (updateField db2 diagramId tables hist tableId fieldId fpatch uh).calls
          = [PersistCall.getTableCall diagramId tableId,
             PersistCall.updateTableCall tableId]) := by
  refine ⟨⟨?_, ?_, ?_⟩, ⟨?_, ?_, ?_⟩, ⟨?_, ?_, ?_⟩, ⟨?_, ?_, ?_⟩, ⟨?_, ?_, ?_⟩,
    ⟨?_, ?_, ?_⟩, ⟨?_, ?_⟩⟩ <;>
    simp only [updateField, removeField, addField, addIndex, updateIndex, removeIndex,
      h1, h2, h3, h4]

/-- C6 witness: the gateway-not-found short-circuit and the in-memory-miss
behaviour, instantiated with a concrete table, a missing field id `zz` and a
missing index id `ix`. -/
theorem notFound_short_circuit_witness :
    ((updateField gwNoTable "d1" [tblA] hist0 "t1" "zz" patchName true).calls
        = [PersistCall.getTableCall "d1" "t1"]
      ∧ (updateField gwNoTable "d1" [tblA] hist0 "t1" "zz" patchName true).history = hist0
      ∧ (updateField gwNoTable "d1" [tblA] hist0 "t1" "zz" patchName true).store
          = updateFieldTables [tblA] "t1" "zz" patchName)
    ∧ ((removeField gwNoTable "d1" [tblA] hist0 "t1" "zz" true).calls
        = [PersistCall.getTableCall "d1" "t1"]
      ∧ (removeField gwNoTable "d1" [tblA] hist0 "t1" "zz" true).history = hist0
      ∧ (removeField gwNoTable "d1" [tblA] hist0 "t1" "zz" true).store
          = removeFieldTables [tblA] "t1" "zz")
    ∧ ((addField gwNoTable "d1" [tblA] hist0 "t1" fldEmail true).calls
        = [PersistCall.getTableCall "d1" "t1"]
      ∧ (addField gwNoTable "d1" [tblA] hist0 "t1" fldEmail true).history = hist0
      ∧ (addField gwNoTable "d1" [tblA] hist0 "t1" fldEmail true).store
          = addFieldTables [tblA] "t1" fldEmail)
    ∧ ((addIndex gwNoTable "d1" [tblA] hist0 "t1" idxA true).calls
        = [PersistCall.getTableCall "d1" "t1"]
      ∧ (addIndex gwNoTable "d1" [tblA] hist0 "t1" idxA true).history = hist0
      ∧ (addIndex gwNoTable "d1" [tblA] hist0 "t1" idxA true).store
          = addIndexTables [tblA] "t1" idxA)
    ∧ ((updateIndex gwNoTable "d1" [tblA] hist0 "t1" "ix" idxPatchA true).calls
        = [PersistCall.getTableCall "d1" "t1"]
      ∧ (updateIndex gwNoTable "d1" [tblA] hist0 "t1" "ix" idxPatchA true).history = hist0
      ∧ (updateIndex gwNoTable "d1" [tblA] hist0 "t1" "ix" idxPatchA true).store
          = updateIndexTables [tblA] "t1" "ix" idxPatchA)
    ∧ ((removeIndex gwNoTable "d1" [tblA] hist0 "t1" "ix" true).calls
        = [PersistCall.getTableCall "d1" "t1"]
      ∧ (removeIndex gwNoTable "d1" [tblA] hist0 "t1" "ix" true).history = hist0
      ∧ (removeIndex gwNoTable "d1" [tblA] hist0 "t1" "ix" true).store
          = removeIndexTables [tblA] "t1" "ix")
    ∧ ((updateField gwOk "d1" [tblA] hist0 "t1" "zz" patchName true).history = hist0
      ∧ (updateField gwOk "d1" [tblA] hist0 "t1" "zz" patchName true).calls
          = [PersistCall.getTableCall "d1" "t1", PersistCall.updateTableCall "t1"]) :=
  notFound_short_circuit gwNoTable gwOk "d1" [tblA] hist0 "t1" "zz" "ix" patchName
    idxPatchA fldEmail idxA tblA true rfl rfl rfl (by decide)

/-- C1 counterexample: removing the *first* of `tblA`'s two fields records
the expected action, but undoing it by re-adding `undoData`'s field appends
the field at the end of the field sequence — the store becomes
`[fldEmail, fldId]` instead of the pre-removal `[fldId, fldEmail]`, so the
exact pre-operation entity state is not restored. -/
theorem removeField_undo_reorders :
    (removeField gwOk "d1" [tblA] hist0 "t1" "f1" true).history.undoStack
        = [{ action := "removeField"
             redoData := ActionData.fieldRef "t1" "f1"
             undoData := ActionData.tableIdWithField "t1" fldId }]
    ∧ (addField gwOk "d1" (removeField gwOk "d1" [tblA] hist0 "t1" "f1" true).store
          hist0 "t1" fldId false).store
        = [{ tblA with fields := [fldEmail, fldId] }]
    ∧ [({ tblA with fields := [fldEmail, fldId] } : DBTable)] ≠ [tblA] := by
  refine ⟨rfl, rfl, by decide⟩

/-- C1 amended: for `removeField` on an existing field with
`updateHistory = true` (gateway read finds the table, write fulfils), the
recorded action's `undoData` holds the removed field and `redoData` its
ids; re-adding `undoData`'s field via `addField` restores the exact
pre-removal table sequence *provided the removed field was the last field
of its table* (in general the field is re-appended at the end, changing the
order); and re-applying `redoData`'s removal afterwards restores exactly
the post-removal store. -/
theorem removeField_addField_roundTrip (db db2 db3 : Gateway) (diagramId : String)
    (tables : List DBTable) (hist hist2 hist3 : HistoryLog)
    (tableId fieldId : String) (f : DBField) (dbt : DBTable)
    (hget : db.getTableRes diagramId tableId = some dbt)
    (hupd : db.updateTableRes tableId = Except.ok ())
    (hfield : getField tables tableId fieldId = some f)
    (hlast : ∀ t ∈ tables, (t.id == tableId) = true →
      ∃ init, t.fields = init ++ [f] ∧ ∀ g ∈ init, (g.id == fieldId) = false) :
    (removeField db diagramId tables hist tableId fieldId true).history
        = { undoStack := { action := "removeField"
                           redoData := ActionData.fieldRef tableId fieldId
                           undoData := ActionData.tableIdWithField tableId f } :: hist.undoStack
            redoStack := [] }
    ∧ (addField db2 diagramId (removeField db diagramId tables hist tableId fieldId true).store
          hist2 tableId f false).store = tables
    ∧ (removeField db3 diagramId
          (addField db2 diagramId
              (removeField db diagramId tables hist tableId fieldId true).store
              hist2 tableId f false).store
          hist3 tableId fieldId false).store
        = (removeField db diagramId tables hist tableId fieldId true).store := by
  have hf : (f.id == fieldId) = true := getField_beq tables tableId fieldId f hfield
  have hundo : (addField db2 diagramId
      (removeField db diagramId tables hist tableId fieldId true).store
      hist2 tableId f false).store = tables := by
    rw [addField_store, removeField_store]
    exact addFieldTables_removeFieldTables tables tableId fieldId f hf hlast
  refine ⟨?_, hundo, ?_⟩
  · simp [removeField, hget, hupd, hfield, recordIf, resetRedoStack, addUndoAction]
  · rw [removeField_store, hundo, removeField_store]

/-- C1 witness: removing `tblA`'s last field `f2` (the `email` field),
undoing by re-adding it, and redoing the removal — undo restores `[tblA]`
exactly and redo restores the post-removal store. -/
theorem removeField_addField_roundTrip_witness :
    (removeField gwOk "d1" [tblA] hist0 "t1" "f2" true).history
        = { undoStack := [{ action := "removeField"
                            redoData := ActionData.fieldRef "t1" "f2"
                            undoData := ActionData.tableIdWithField "t1" fldEmail }]
            redoStack := [] }
    ∧ (addField gwOk "d1" (removeField gwOk "d1" [tblA] hist0 "t1" "f2" true).store
          hist0 "t1" fldEmail false).store = [tblA]
    ∧ (removeField gwOk "d1"
          (addField gwOk "d1"
              (removeField gwOk "d1" [tblA] hist0 "t1" "f2" true).store
              hist0 "t1" fldEmail false).store
          hist0 "t1" "f2" false).store
        = (removeField gwOk "d1" [tblA] hist0 "t1" "f2" true).store :=
  removeField_addField_roundTrip gwOk gwOk gwOk "d1" [tblA] hist0 hist0 hist0
    "t1" "f2" fldEmail tblA rfl rfl (by decide)
    (by
      intro t ht h
      have : t = tblA := by simpa using ht
      subst this
      exact ⟨[fldId], rfl, by decide⟩)

/-- C2: with every persistence call fulfilling and `updateHistory = true`,
the store after `updateTablesState` is exactly the existing tables whose id
appears in the transformation's result, each shallow-merged with its
matching partial update (tables absent from the result are dropped), and
exactly one Action is recorded whose `undoData` holds the full prior table
sequence and whose `redoData` holds the full updated sequence, the redo
branch being cleared. -/
theorem updateTablesState_reconciliation (db : Gateway) (diagramId : String)
    (tables : List DBTable) (hist : HistoryLog)
    (updateFn : List DBTable → List TableUpdate)
    (hu : ∀ id, db.updateTableRes id = Except.ok ())
    (hd : ∀ id, db.deleteTableRes id = Except.ok ()) :
    (updateTablesState db diagramId tables hist updateFn true).store
        = (tables.filter (fun t => (updateFn tables).any (fun u => u.id == t.id))).map
            (mergeTableUpdate (updateFn tables))
    ∧ (updateTablesState db diagramId tables hist updateFn true).history.undoStack
        = { action := "updateTablesState"
            redoData := ActionData.tablesOnly (updateTablesFn updateFn tables)
            undoData := ActionData.tablesOnly tables } :: hist.undoStack
    ∧ (updateTablesState db diagramId tables hist updateFn true).history.redoStack = [] := by
  have hall : promiseAll
      ((updateTablesFn updateFn tables).map (fun t => db.updateTableRes t.id)
        ++ (tables.filter (fun table =>
              !((updateTablesFn updateFn tables).any (fun t => t.id == table.id)))).map
            (fun t => db.deleteTableRes t.id)) = Except.ok () := by
    apply promiseAll_ok
    intro r hr
    rcases List.mem_append.mp hr with h | h
    · obtain ⟨t, _, rfl⟩ := List.mem_map.mp h
      exact hu t.id
    · obtain ⟨t, _, rfl⟩ := List.mem_map.mp h
      exact hd t.id
  have hstore : (updateTablesState db diagramId tables hist updateFn true).store
      = updateTablesFn updateFn tables := by
    simp only [updateTablesState]
    split <;> rfl
  refine ⟨?_, ?_, ?_⟩
  · rw [hstore, updateTablesFn_eq]
  · simp only [updateTablesState, hall, recordIf, if_true, resetRedoStack, addUndoAction]
  · simp only [updateTablesState, hall, recordIf, if_true, resetRedoStack, addUndoAction]

/-- The bulk-reconciliation transformation of the witness: rename `t1`,
keep `t3`, drop everything else (in particular `t2`). -/
def updFnW : List DBTable → List TableUpdate :=
  fun _ => [{ id := "t1", name := some "renamed" }, { id := "t3" }]

/-- C2 witness: reconciling `{tblA, tblB, tblC}` with a transformation that
updates `t1` and keeps only `t1`, `t3`: the store becomes
`{tblA renamed, tblC}` and one action captures the full three-table /
two-table sequences. -/
theorem updateTablesState_reconciliation_witness :
    ((updateTablesState gwOk "d1" [tblA, tblB, tblC] hist0 updFnW true).store
        = ([tblA, tblB, tblC].filter
              (fun t => (updFnW [tblA, tblB, tblC]).any (fun u => u.id == t.id))).map
            (mergeTableUpdate (updFnW [tblA, tblB, tblC]))
    ∧ (updateTablesState gwOk "d1" [tblA, tblB, tblC] hist0 updFnW true).history.undoStack
        = { action := "updateTablesState"
            redoData := ActionData.tablesOnly (updateTablesFn updFnW [tblA, tblB, tblC])
            undoData := ActionData.tablesOnly [tblA, tblB, tblC] } :: hist0.undoStack
    ∧ (updateTablesState gwOk "d1" [tblA, tblB, tblC] hist0 updFnW true).history.redoStack = [])
    ∧ (updateTablesState gwOk "d1" [tblA, tblB, tblC] hist0 updFnW true).store
        = [{ tblA with name := "renamed" }, tblC] :=
  ⟨updateTablesState_reconciliation gwOk "d1" [tblA, tblB, tblC] hist0 updFnW
      (fun _ => rfl) (fun _ => rfl),
    by decide⟩

/-- C4: redo-branch invalidation.  Every mutation operation either leaves
the History Log untouched (its recording condition failed, or it has no
recording at all) or appends exactly one Action to the undo stack *and*
empties the redo branch — recording never leaves a redoable action behind.
Stated for every operation of the provider: diagram metadata, table, field,
index, relationship, the create wrappers and the bulk operations. -/
theorem redo_branch_invalidation :
    (∀ db diagramId diagramName hist name uh,
      historyContract hist (updateDiagramName db diagramId diagramName hist name uh).history)
    ∧ (∀ db diagramId hist databaseType,
      historyContract hist (updateDatabaseType db diagramId hist databaseType).history)
    ∧ (∀ db diagramId hist id,
      historyContract hist (updateDiagramId db diagramId hist id).history)
    ∧ (∀ db diagramId tables hist table uh,
      historyContract hist (addTable db diagramId tables hist table uh).history)
    ∧ (∀ db diagramId tables hist gid gfid color now,
      historyContract hist (createTable db diagramId tables hist gid gfid color now).1.history)
    ∧ (∀ db diagramId tables hist id uh,
      historyContract hist (removeTable db diagramId tables hist id uh).history)
    ∧ (∀ db tables hist id patch uh,
      historyContract hist (updateTable db tables hist id patch uh).history)
    ∧ (∀ db diagramId tables hist updateFn uh,
      historyContract hist (updateTablesState db diagramId tables hist updateFn uh).history)
    ∧ (∀ db diagramId tables hist tableId fieldId patch uh,
      historyContract hist (updateField db diagramId tables hist tableId fieldId patch uh).history)
    ∧ (∀ db diagramId tables hist tableId fieldId uh,
      historyContract hist (removeField db diagramId tables hist tableId fieldId uh).history)
    ∧ (∀ db diagramId tables hist tableId field uh,
      historyContract hist (addField db diagramId tables hist tableId field uh).history)
    ∧ (∀ db diagramId tables hist tableId gfid now,
      historyContract hist (createField db diagramId tables hist tableId gfid now).1.history)
    ∧ (∀ db diagramId tables hist tableId index uh,
      historyContract hist (addIndex db diagramId tables hist tableId index uh).history)
    ∧ (∀ db diagramId tables hist tableId giid now,
      historyContract hist (createIndex db diagramId tables hist tableId giid now).1.history)
    ∧ (∀ db diagramId tables hist tableId indexId uh,
      historyContract hist (removeIndex db diagramId tables hist tableId indexId uh).history)
    ∧ (∀ db diagramId tables hist tableId indexId patch uh,
      historyContract hist (updateIndex db diagramId tables hist tableId indexId patch uh).history)
    ∧ (∀ db diagramId rels hist r uh,
      historyContract hist (addRelationship db diagramId rels hist r uh).history)
    ∧ (∀ db diagramId rels hist rs uh,
      historyContract hist (addRelationships db diagramId rels hist rs uh).history)
    ∧ (∀ db diagramId tables rels hist st tt sf tf gid now,
      historyContract hist
        (createRelationship db diagramId tables rels hist st tt sf tf gid now).1.history)
    ∧ (∀ db diagramId rels hist id uh,
      historyContract hist (removeRelationship db diagramId rels hist id uh).history)
    ∧ (∀ db diagramId rels hist ids uh,
      historyContract hist (removeRelationships db diagramId rels hist ids uh).history)
    ∧ (∀ db rels hist id patch uh,
      historyContract hist (updateRelationship db rels hist id patch uh).history) := by
  refine ⟨?_, ?_, ?_, ?_, ?_, ?_, ?_, ?_, ?_, ?_, ?_, ?_, ?_, ?_, ?_, ?_, ?_, ?_, ?_, ?_,
    ?_, ?_⟩ <;>
    intros <;>
    simp only [updateDiagramName, updateDatabaseType, updateDiagramId, addTable,
      createTable, removeTable, updateTable, updateTablesState, updateField, removeField,
      addField, createField, addIndex, createIndex, removeIndex, updateIndex,
      addRelationship, addRelationships, createRelationship, removeRelationship,
      removeRelationships, updateRelationship] <;>
    (repeat' split) <;>
    (try dsimp only) <;>
    first
      | exact historyContract_refl _
      | exact historyContract_recordIf _ _ _

end ChartDB
